import Mathlib

/-!
Shallow embedding of the macro-tracker persistence engine
(`src/extensions/macro-tracker/src/db.ts`, plus the tool layer in
`update-goals-tool.ts` and `get-summary-tool.ts`).

Modelling conventions:
* SQLite tables become Lean lists of row structures; `REAL` columns become `ℚ`.
* `crypto.randomUUID()` becomes a fresh-id counter (`nextId`) threaded through
  the store state; each call to the id generator consumes one counter value.
* `new Date().toISOString()` becomes an explicit `now : String` argument.
* The better-sqlite3 `transaction` wrapper becomes `runTransaction`: the listed
  row writes are all applied, or, when a failure is injected at some write
  index, none are (ROLLBACK semantics).
-/

inductive Confidence
  | high
  | medium
  | low
deriving DecidableEq

/-- `ExtractedItem` from `types.ts`: validated LLM extraction output. -/
structure ExtractedItem where
  name : String
  quantity : String
  calories : ℚ
  protein : ℚ
  carbs : ℚ
  fat : ℚ
  fiber : ℚ
  confidence : Confidence
deriving DecidableEq

/-- One row of the `items` table. -/
structure ItemRow where
  id : Nat
  entry_id : Nat
  name : String
  quantity : String
  calories : ℚ
  protein : ℚ
  carbs : ℚ
  fat : ℚ
  fiber : ℚ
  confidence : Confidence
deriving DecidableEq

/-- One row of the `entries` table. -/
structure EntryRow where
  id : Nat
  created_at : String
  date : String
  source : String
  raw_input : String
  total_calories : ℚ
  total_protein : ℚ
  total_carbs : ℚ
  total_fat : ℚ
  total_fiber : ℚ
deriving DecidableEq

/-- `NutritionEntry` from `types.ts`: an entry row materialized with its items. -/
structure NutritionEntry where
  id : Nat
  created_at : String
  date : String
  source : String
  raw_input : String
  total_calories : ℚ
  total_protein : ℚ
  total_carbs : ℚ
  total_fat : ℚ
  total_fiber : ℚ
  items : List ItemRow
deriving DecidableEq

/-- `Goals` from `types.ts`: the singleton goals record (`id` is `"default"`). -/
structure Goals where
  id : String
  calories : ℚ
  protein : ℚ
  carbs : ℚ
  fat : ℚ
  fiber : ℚ
  updated_at : String
deriving DecidableEq

/-- A subset of the five numeric goal fields (`Partial` goals argument). -/
structure GoalsPatch where
  calories : Option ℚ
  protein : Option ℚ
  carbs : Option ℚ
  fat : Option ℚ
  fiber : Option ℚ
deriving DecidableEq

/-- Arguments of `MacroTrackerDb.insertEntry`. -/
structure InsertParams where
  date : String
  source : String
  rawInput : String
  items : List ExtractedItem
deriving DecidableEq

/-- The store state: the three SQLite tables plus the fresh-id counter. -/
structure MacroTrackerDb where
  entries : List EntryRow
  items : List ItemRow
  goals : Option Goals
  nextId : Nat
deriving DecidableEq

/-- `DailySummary` from `types.ts`. -/
structure DailySummary where
  date : String
  total_calories : ℚ
  total_protein : ℚ
  total_carbs : ℚ
  total_fat : ℚ
  total_fiber : ℚ
  entry_count : Nat
  entries : List NutritionEntry
  goals : Option Goals
deriving DecidableEq

/-- Accumulating a numeric field over a list, as the source's `for` loops with
`+=` do (`let total = 0; for (x of l) total += f(x)`). -/
def sumBy (l : List α) (f : α → ℚ) : ℚ :=
  l.foldl (fun acc x => acc + f x) 0

/-- A single row write inside the insert transaction. -/
inductive Write
  | entry (r : EntryRow)
  | item (r : ItemRow)
deriving DecidableEq

def applyWrite (db : MacroTrackerDb) : Write → MacroTrackerDb
  | .entry r => ⟨db.entries ++ [r], db.items, db.goals, db.nextId⟩
  | .item r => ⟨db.entries, db.items ++ [r], db.goals, db.nextId⟩

def applyWrites (db : MacroTrackerDb) (ws : List Write) : MacroTrackerDb :=
  ws.foldl applyWrite db

/-- better-sqlite3 transaction semantics: if a failure is injected at a write
index inside the list, the whole transaction rolls back and the store is
untouched; otherwise every write commits. -/
def runTransaction (db : MacroTrackerDb) (ws : List Write) (failAt : Option Nat) :
    MacroTrackerDb :=
  match failAt with
  | none => applyWrites db ws
  | some k => if k < ws.length then db else applyWrites db ws

/-- The item rows built inside the insert loop: ids are consecutive fresh ids,
`entry_id` is the new entry's id, the remaining fields copy the input item. -/
def itemRowsOf (entryId : Nat) : Nat → List ExtractedItem → List ItemRow
  | _, [] => []
  | nid, i :: rest =>
    ⟨nid, entryId, i.name, i.quantity, i.calories, i.protein, i.carbs, i.fat,
     i.fiber, i.confidence⟩ :: itemRowsOf entryId (nid + 1) rest

/-- The entry row written by `insertEntry`: totals are the plain sums of the
input items' macro fields. -/
def MacroTrackerDb.entryRowOf (db : MacroTrackerDb) (now : String) (p : InsertParams) :
    EntryRow :=
  ⟨db.nextId, now, p.date, p.source, p.rawInput,
   sumBy p.items (·.calories), sumBy p.items (·.protein), sumBy p.items (·.carbs),
   sumBy p.items (·.fat), sumBy p.items (·.fiber)⟩

/-- The writes performed by the insert transaction, in source order: first the
entry row, then one item row per input item. -/
def MacroTrackerDb.insertWrites (db : MacroTrackerDb) (now : String) (p : InsertParams) :
    List Write :=
  Write.entry (db.entryRowOf now p) ::
    (itemRowsOf db.nextId (db.nextId + 1) p.items).map Write.item

/-- `insertEntry`'s effect on the store, with an optional injected failure
(`failAt`): used to state the atomicity property. The id counter advance
models the `randomUUID` calls, which happen before the transaction runs. -/
def MacroTrackerDb.insertEntryWithFailure (db : MacroTrackerDb) (now : String)
    (p : InsertParams) (failAt : Option Nat) : MacroTrackerDb :=
  runTransaction ⟨db.entries, db.items, db.goals, db.nextId + 1 + p.items.length⟩
    (db.insertWrites now p) failAt

/-- `MacroTrackerDb.insertEntry` from `db.ts` (lines 89-172): sums the items'
macro fields, writes the entry row and all item rows in one transaction, and
returns the fully materialized entry. There is no validation of `p.items`. -/
def MacroTrackerDb.insertEntry (db : MacroTrackerDb) (now : String) (p : InsertParams) :
    MacroTrackerDb × NutritionEntry :=
  let row := db.entryRowOf now p
  (db.insertEntryWithFailure now p none,
   ⟨row.id, row.created_at, row.date, row.source, row.raw_input,
    row.total_calories, row.total_protein, row.total_carbs, row.total_fat,
    row.total_fiber, itemRowsOf db.nextId (db.nextId + 1) p.items⟩)

/-- `MacroTrackerDb.getEntry`: find the entry row, join its items (items are
looked up by the requested id, as the source's second query does). -/
def MacroTrackerDb.getEntry (db : MacroTrackerDb) (id : Nat) : Option NutritionEntry :=
  match db.entries.find? (fun r => r.id == id) with
  | none => none
  | some r =>
    some ⟨r.id, r.created_at, r.date, r.source, r.raw_input, r.total_calories,
          r.total_protein, r.total_carbs, r.total_fat, r.total_fiber,
          db.items.filter (fun it => it.entry_id == id)⟩

/-- `MacroTrackerDb.deleteEntry`: `DELETE FROM entries WHERE id = ?` with
`ON DELETE CASCADE` (foreign keys are on), returning `changes > 0`. Items are
removed exactly when they reference a deleted entry row. -/
def MacroTrackerDb.deleteEntry (db : MacroTrackerDb) (id : Nat) :
    MacroTrackerDb × Bool :=
  let changes := db.entries.countP (fun r => r.id == id)
  (⟨db.entries.filter (fun r => !(r.id == id)),
    db.items.filter (fun it => !(db.entries.any (fun r => r.id == id && it.entry_id == r.id))),
    db.goals, db.nextId⟩,
   decide (0 < changes))

/-- ORDER BY created_at ASC, modelled as a (stable) insertion sort. -/
def createdLE (a b : EntryRow) : Prop :=
  a.created_at ≤ b.created_at

instance : DecidableRel createdLE :=
  fun a b => inferInstanceAs (Decidable (a.created_at ≤ b.created_at))

instance : IsTrans EntryRow createdLE :=
  ⟨fun _ _ _ h h' => le_trans h h'⟩

instance : IsTotal EntryRow createdLE :=
  ⟨fun a b => le_total a.created_at b.created_at⟩

/-- Materialize an entry row with its items, as the range query's row mapper
does (items looked up by `row.id`). -/
def MacroTrackerDb.materializeEntry (db : MacroTrackerDb) (r : EntryRow) :
    NutritionEntry :=
  ⟨r.id, r.created_at, r.date, r.source, r.raw_input, r.total_calories,
   r.total_protein, r.total_carbs, r.total_fat, r.total_fiber,
   db.items.filter (fun it => it.entry_id == r.id)⟩

/-- `MacroTrackerDb.getEntriesByDateRange`: `WHERE date >= from AND date <= to
ORDER BY created_at ASC`, each row materialized with its items. SQLite's
BINARY collation on ASCII dates is String's lexicographic order. -/
def MacroTrackerDb.getEntriesByDateRange (db : MacroTrackerDb) (from_ to_ : String) :
    List NutritionEntry :=
  ((db.entries.filter (fun r => decide (from_ ≤ r.date) && decide (r.date ≤ to_))).insertionSort
      createdLE).map db.materializeEntry

/-- `MacroTrackerDb.getGoals`: the singleton goals row or null. -/
def MacroTrackerDb.getGoals (db : MacroTrackerDb) : Option Goals :=
  db.goals

/-- `MacroTrackerDb.getDailySummary`: single-day range read plus summed totals
and the current goals. -/
def MacroTrackerDb.getDailySummary (db : MacroTrackerDb) (date : String) :
    DailySummary :=
  let entries := db.getEntriesByDateRange date date
  ⟨date, sumBy entries (·.total_calories), sumBy entries (·.total_protein),
   sumBy entries (·.total_carbs), sumBy entries (·.total_fat),
   sumBy entries (·.total_fiber), entries.length, entries, db.getGoals⟩

/-- `MacroTrackerDb.updateGoals`: three-way merge `supplied ?? existing ?? baseline`
per field, then upsert of the singleton row; returns the merged record. -/
def MacroTrackerDb.updateGoals (db : MacroTrackerDb) (now : String) (p : GoalsPatch) :
    MacroTrackerDb × Goals :=
  let existing := db.getGoals
  let g : Goals :=
    ⟨"default",
     p.calories.getD ((existing.map Goals.calories).getD 2000),
     p.protein.getD ((existing.map Goals.protein).getD 150),
     p.carbs.getD ((existing.map Goals.carbs).getD 250),
     p.fat.getD ((existing.map Goals.fat).getD 65),
     p.fiber.getD ((existing.map Goals.fiber).getD 30),
     now⟩
  (⟨db.entries, db.items, some g, db.nextId⟩, g)

/-- Whether an optional supplied goal value is negative (the tool's `val < 0`
check on provided numeric fields). -/
def isNeg : Option ℚ → Bool
  | none => false
  | some v => decide (v < 0)

/-- Whether the collected `updates` object of the goals tool is non-empty:
some field was supplied. -/
def GoalsPatch.anyProvided (p : GoalsPatch) : Bool :=
  p.calories.isSome || p.protein.isSome || p.carbs.isSome || p.fat.isSome ||
    p.fiber.isSome

/-- `createUpdateGoalsTool().execute` from `update-goals-tool.ts`: walks the
five fields in order, throwing at the first supplied negative value, then
throws if no field was supplied, else calls `db.updateGoals`. -/
def updateGoalsToolExecute (db : MacroTrackerDb) (now : String) (p : GoalsPatch) :
    Except String (MacroTrackerDb × Goals) :=
  if isNeg p.calories then .error "calories must be non-negative"
  else if isNeg p.protein then .error "protein must be non-negative"
  else if isNeg p.carbs then .error "carbs must be non-negative"
  else if isNeg p.fat then .error "fat must be non-negative"
  else if isNeg p.fiber then .error "fiber must be non-negative"
  else if !p.anyProvided then .error "At least one goal value must be provided"
  else .ok (db.updateGoals now p)

def exceptOk : Except ε α → Bool
  | .ok _ => true
  | .error _ => false

/-- One item check of `NUTRITION_EXTRACTION_SCHEMA` (`extraction.ts`): name at
least one character, all five macro fields non-negative. -/
def validExtractedItem (i : ExtractedItem) : Bool :=
  decide (1 ≤ i.name.length) && decide (0 ≤ i.calories) && decide (0 ≤ i.protein) &&
    decide (0 ≤ i.carbs) && decide (0 ≤ i.fat) && decide (0 ≤ i.fiber)

/-- The `items` check of `NUTRITION_EXTRACTION_SCHEMA`: `minItems: 1` and every
item valid. This is the upstream guard in the extraction pipeline; it is not
part of `insertEntry`. -/
def validExtraction (items : List ExtractedItem) : Bool :=
  decide (1 ≤ items.length) && items.all validExtractedItem

/-- JavaScript's `Math.round`: round half toward positive infinity. -/
def jsRound (q : ℚ) : ℤ :=
  ⌊q + (1 : ℚ) / 2⌋

/-- Per-day totals of the range-summary branch (`get-summary-tool.ts`):
the `byDate` accumulator entry for one date. -/
structure DayTotals where
  date : String
  calories : ℚ
  protein : ℚ
  carbs : ℚ
  fat : ℚ
  fiber : ℚ
  count : Nat
deriving DecidableEq

structure MacroTotals where
  calories : ℚ
  protein : ℚ
  carbs : ℚ
  fat : ℚ
  fiber : ℚ
deriving DecidableEq

structure MacroAverages where
  calories : ℤ
  protein : ℤ
  carbs : ℤ
  fat : ℤ
  fiber : ℤ
deriving DecidableEq

/-- The `details` object of the range branch of `get_nutrition_summary`. -/
structure RangeSummaryDetails where
  days : List DayTotals
  totals : MacroTotals
  averages : MacroAverages
deriving DecidableEq

/-- The `byDate` accumulator entry for one date: each entry of that date is
added once, in iteration order. -/
def dayTotalsFor (entries : List NutritionEntry) (d : String) : DayTotals :=
  let des := entries.filter (fun e => e.date == d)
  ⟨d, sumBy des (·.total_calories), sumBy des (·.total_protein),
   sumBy des (·.total_carbs), sumBy des (·.total_fat), sumBy des (·.total_fiber),
   des.length⟩

/-- The range branch of `createGetSummaryTool().execute`: group entries by
`date`, sort the days lexicographically, sum period totals over the days, and
divide by `days.length || 1` with `Math.round` for the averages. -/
def rangeSummary (db : MacroTrackerDb) (from_ to_ : String) : RangeSummaryDetails :=
  let entries := db.getEntriesByDateRange from_ to_
  let dates := ((entries.map (·.date)).dedup).insertionSort (· ≤ ·)
  let days := dates.map (dayTotalsFor entries)
  let totals : MacroTotals :=
    ⟨sumBy days (·.calories), sumBy days (·.protein), sumBy days (·.carbs),
     sumBy days (·.fat), sumBy days (·.fiber)⟩
  let numDays : ℕ := if days.length = 0 then 1 else days.length
  ⟨days, totals,
   ⟨jsRound (totals.calories / numDays), jsRound (totals.protein / numDays),
    jsRound (totals.carbs / numDays), jsRound (totals.fat / numDays),
    jsRound (totals.fiber / numDays)⟩⟩

/-- Freshness of the id counter: every id already in the store came from an
earlier counter value. Holds for every store built by the operations above. -/
def Fresh (db : MacroTrackerDb) : Prop :=
  (∀ r ∈ db.entries, r.id < db.nextId) ∧ (∀ it ∈ db.items, it.entry_id < db.nextId)

/-- Row/input comparison used by the round-trip claim: the stored item rows
match the input items field-for-field, in order. -/
def itemsMatch : List ItemRow → List ExtractedItem → Bool
  | [], [] => true
  | r :: rs, i :: rest =>
    (decide (r.name = i.name) && decide (r.quantity = i.quantity) &&
     decide (r.calories = i.calories) && decide (r.protein = i.protein) &&
     decide (r.carbs = i.carbs) && decide (r.fat = i.fat) &&
     decide (r.fiber = i.fiber) && decide (r.confidence = i.confidence)) &&
      itemsMatch rs rest
  | _, _ => false

-- ── General helper lemmas ───────────────────────────────────────────────────

theorem foldl_add_eq (f : α → ℚ) (l : List α) (a : ℚ) :
    l.foldl (fun acc x => acc + f x) a = a + (l.map f).sum := by
  induction l generalizing a with
  | nil => simp
  | cons x xs ih => simp [List.foldl_cons, ih, List.sum_cons]; ring

theorem sumBy_eq_sum (f : α → ℚ) (l : List α) : sumBy l f = (l.map f).sum := by
  simpa [sumBy] using foldl_add_eq f l 0

theorem sumBy_nil (f : α → ℚ) : sumBy [] f = 0 := rfl

theorem sumBy_filter_not_add (p : α → Bool) (f : α → ℚ) (l : List α) :
    sumBy (l.filter p) f + sumBy (l.filter (fun x => !(p x))) f = sumBy l f := by
  induction l with
  | nil => simp [sumBy]
  | cons a t ih =>
    rw [sumBy_eq_sum, sumBy_eq_sum, sumBy_eq_sum] at *
    cases h : p a <;> simp [List.filter_cons, h, List.sum_cons] <;> linarith

theorem applyWrites_cons (db : MacroTrackerDb) (w : Write) (ws : List Write) :
    applyWrites db (w :: ws) = applyWrites (applyWrite db w) ws := rfl

theorem applyWrites_map_item (rs : List ItemRow) :
    ∀ db : MacroTrackerDb, applyWrites db (rs.map Write.item) =
      ⟨db.entries, db.items ++ rs, db.goals, db.nextId⟩ := by
  induction rs with
  | nil => intro db; cases db; simp [applyWrites]
  | cons r rest ih =>
    intro db
    cases db with
    | mk es its g n =>
      rw [List.map_cons, applyWrites_cons]
      simp [applyWrite, ih]

theorem applyWrites_insertWrites (db : MacroTrackerDb) (now : String)
    (p : InsertParams) (base : MacroTrackerDb) :
    applyWrites base (db.insertWrites now p) =
      ⟨base.entries ++ [db.entryRowOf now p],
       base.items ++ itemRowsOf db.nextId (db.nextId + 1) p.items,
       base.goals, base.nextId⟩ := by
  rw [MacroTrackerDb.insertWrites, applyWrites_cons, applyWrites_map_item]
  simp [applyWrite]

theorem insertEntry_fst (db : MacroTrackerDb) (now : String) (p : InsertParams) :
    (db.insertEntry now p).1 =
      ⟨db.entries ++ [db.entryRowOf now p],
       db.items ++ itemRowsOf db.nextId (db.nextId + 1) p.items,
       db.goals, db.nextId + 1 + p.items.length⟩ := by
  show db.insertEntryWithFailure now p none = _
  rw [MacroTrackerDb.insertEntryWithFailure, runTransaction, applyWrites_insertWrites]

theorem itemRowsOf_length (eid : Nat) (its : List ExtractedItem) :
    ∀ nid : Nat, (itemRowsOf eid nid its).length = its.length := by
  induction its with
  | nil => intro nid; rfl
  | cons i rest ih => intro nid; simp [itemRowsOf, ih]

theorem itemRowsOf_entry_id (eid : Nat) (its : List ExtractedItem) :
    ∀ nid : Nat, ∀ r ∈ itemRowsOf eid nid its, r.entry_id = eid := by
  induction its with
  | nil => intro nid r hr; simp [itemRowsOf] at hr
  | cons i rest ih =>
    intro nid r hr
    rw [itemRowsOf, List.mem_cons] at hr
    rcases hr with h | h
    · subst h; rfl
    · exact ih (nid + 1) r h

theorem itemRowsOf_id_bounds (eid : Nat) (its : List ExtractedItem) :
    ∀ nid : Nat, ∀ r ∈ itemRowsOf eid nid its, nid ≤ r.id ∧ r.id < nid + its.length := by
  induction its with
  | nil => intro nid r hr; simp [itemRowsOf] at hr
  | cons i rest ih =>
    intro nid r hr
    rw [itemRowsOf, List.mem_cons] at hr
    rcases hr with h | h
    · subst h
      exact ⟨le_refl nid, Nat.lt_add_of_pos_right (Nat.succ_pos rest.length)⟩
    · rcases ih (nid + 1) r h with ⟨h1, h2⟩
      simp only [List.length_cons]
      omega

theorem itemRowsOf_ids_nodup (eid : Nat) (its : List ExtractedItem) :
    ∀ nid : Nat, ((itemRowsOf eid nid its).map ItemRow.id).Nodup := by
  induction its with
  | nil => intro nid; simp [itemRowsOf]
  | cons i rest ih =>
    intro nid
    rw [itemRowsOf, List.map_cons, List.nodup_cons]
    refine ⟨?_, ih (nid + 1)⟩
    intro hmem
    rcases List.mem_map.mp hmem with ⟨r, hr, hid⟩
    have hlow := (itemRowsOf_id_bounds eid rest (nid + 1) r hr).1
    have hid' : r.id = nid := hid
    omega

theorem itemsMatch_itemRowsOf (eid : Nat) (its : List ExtractedItem) :
    ∀ nid : Nat, itemsMatch (itemRowsOf eid nid its) its = true := by
  induction its with
  | nil => intro nid; rfl
  | cons i rest ih => intro nid; simp [itemRowsOf, itemsMatch, ih]

theorem find?_append_of_none (p : α → Bool) (l₁ l₂ : List α)
    (h : ∀ a ∈ l₁, p a = false) : (l₁ ++ l₂).find? p = l₂.find? p := by
  induction l₁ with
  | nil => rfl
  | cons a t ih =>
    rw [List.cons_append, List.find?_cons_of_neg]
    · exact ih (fun x hx => h x (List.mem_cons_of_mem a hx))
    · simp [h a (List.mem_cons_self a t)]

-- ── Concrete sample inputs shared by witnesses ──────────────────────────────

def db0 : MacroTrackerDb := ⟨[], [], none, 0⟩

def item0 : ExtractedItem := ⟨"Eggs", "2 large", 140, 12, 1, 10, 0, Confidence.high⟩

def params0 : InsertParams := ⟨"2026-01-15", "voice", "two eggs", [item0]⟩

-- ── C1: insert/get round-trip ───────────────────────────────────────────────

/-- Claim C1: for a fresh store and a non-empty item list, `insertEntry`
followed by `getEntry` on the returned id yields exactly the returned Entry;
its five totals are the plain sums of the input items' macro fields, its item
rows match the inputs field-for-field in insertion order, and the generated
item identifiers are populated (pairwise distinct) and reference the entry. -/
theorem insertEntry_getEntry_roundtrip (db : MacroTrackerDb) (now : String)
    (p : InsertParams) (hf : Fresh db) (hne : p.items ≠ []) :
    (db.insertEntry now p).1.getEntry (db.insertEntry now p).2.id =
        some (db.insertEntry now p).2
  ∧ (db.insertEntry now p).2.total_calories = sumBy p.items (·.calories)
  ∧ (db.insertEntry now p).2.total_protein = sumBy p.items (·.protein)
  ∧ (db.insertEntry now p).2.total_carbs = sumBy p.items (·.carbs)
  ∧ (db.insertEntry now p).2.total_fat = sumBy p.items (·.fat)
  ∧ (db.insertEntry now p).2.total_fiber = sumBy p.items (·.fiber)
  ∧ itemsMatch (db.insertEntry now p).2.items p.items = true
  ∧ ((db.insertEntry now p).2.items.map ItemRow.id).Nodup
  ∧ (∀ r ∈ (db.insertEntry now p).2.items,
      r.entry_id = (db.insertEntry now p).2.id) := by
  refine ⟨?_, rfl, rfl, rfl, rfl, rfl, itemsMatch_itemRowsOf db.nextId p.items _,
          itemRowsOf_ids_nodup db.nextId p.items _,
          fun r hr => itemRowsOf_entry_id db.nextId p.items _ r hr⟩
  show (db.insertEntry now p).1.getEntry db.nextId = some (db.insertEntry now p).2
  rw [insertEntry_fst]
  have hfind : ((db.entries ++ [db.entryRowOf now p]).find?
      (fun r => r.id == db.nextId)) = some (db.entryRowOf now p) := by
    rw [find?_append_of_none]
    · simp [List.find?_cons, MacroTrackerDb.entryRowOf]
    · intro r hr
      have hne' : r.id ≠ db.nextId := Nat.ne_of_lt (hf.1 r hr)
      simp [hne']
  have hfilter : ((db.items ++ itemRowsOf db.nextId (db.nextId + 1) p.items).filter
      (fun it => it.entry_id == db.nextId)) =
        itemRowsOf db.nextId (db.nextId + 1) p.items := by
    rw [List.filter_append]
    have h1 : db.items.filter (fun it => it.entry_id == db.nextId) = [] := by
      rw [List.filter_eq_nil_iff]
      intro it hit
      have : it.entry_id ≠ db.nextId := Nat.ne_of_lt (hf.2 it hit)
      simp [this]
    have h2 : (itemRowsOf db.nextId (db.nextId + 1) p.items).filter
        (fun it => it.entry_id == db.nextId) =
          itemRowsOf db.nextId (db.nextId + 1) p.items := by
      rw [List.filter_eq_self]
      intro it hit
      simp [itemRowsOf_entry_id db.nextId p.items _ it hit]
    rw [h1, h2, List.nil_append]
  simp only [MacroTrackerDb.getEntry, hfind, hfilter]
  rfl

/-- Witness for C1 at a concrete empty store and one-item insert. -/
theorem insertEntry_getEntry_roundtrip_witness :
    Fresh db0 ∧ params0.items ≠ [] ∧
      (db0.insertEntry "2026-01-15T08:00:00.000Z" params0).1.getEntry
          (db0.insertEntry "2026-01-15T08:00:00.000Z" params0).2.id =
        some (db0.insertEntry "2026-01-15T08:00:00.000Z" params0).2 := by
  have hf : Fresh db0 := ⟨by simp [db0], by simp [db0]⟩
  have hne : params0.items ≠ [] := by simp [params0]
  exact ⟨hf, hne,
    (insertEntry_getEntry_roundtrip db0 "2026-01-15T08:00:00.000Z" params0 hf hne).1⟩

-- ── C2: empty item list ─────────────────────────────────────────────────────

/-- Claim C2 counterexample: `insertEntry` called with an empty items list does
not fail and does persist an Entry row — on the empty store the call leaves
one entry row, contradicting "no Entry row is persisted for the rejected
call". -/
theorem insertEntry_empty_items_row_persisted :
    ((db0.insertEntry "2026-02-02T10:00:00.000Z"
        ⟨"2026-02-02", "manual", "", []⟩).1).entries.length = 1 := rfl

/-- Claim C2 (amended): `insertEntry` performs no emptiness validation — with
an empty items list it succeeds, persisting exactly one Entry row with all
five totals 0 and no Item rows; emptiness is rejected upstream by the
extraction schema (`minItems: 1`), not by `insertEntry`. -/
theorem insertEntry_empty_items_inserts_zero_entry (db : MacroTrackerDb)
    (now d s r : String) :
    validExtraction [] = false
  ∧ (db.insertEntry now ⟨d, s, r, []⟩).1.entries.length = db.entries.length + 1
  ∧ (db.insertEntry now ⟨d, s, r, []⟩).1.items = db.items
  ∧ (db.insertEntry now ⟨d, s, r, []⟩).2.items = []
  ∧ (db.insertEntry now ⟨d, s, r, []⟩).2.total_calories = 0
  ∧ (db.insertEntry now ⟨d, s, r, []⟩).2.total_protein = 0
  ∧ (db.insertEntry now ⟨d, s, r, []⟩).2.total_carbs = 0
  ∧ (db.insertEntry now ⟨d, s, r, []⟩).2.total_fat = 0
  ∧ (db.insertEntry now ⟨d, s, r, []⟩).2.total_fiber = 0 := by
  refine ⟨rfl, ?_, ?_, rfl, rfl, rfl, rfl, rfl, rfl⟩
  · rw [insertEntry_fst]; simp
  · rw [insertEntry_fst]; simp [itemRowsOf]

-- ── C3: atomicity of the insert transaction ────────────────────────────────

/-- Claim C3: inserting an Entry with N items either commits exactly one new
entry row and exactly N new item rows all referencing it, or (when a failure
is injected anywhere inside the transaction) leaves the entry and item tables
exactly as they were — never a mismatched count. -/
theorem insertEntry_atomicity (db : MacroTrackerDb) (now : String)
    (p : InsertParams) (failAt : Option Nat) :
    ((db.insertEntryWithFailure now p failAt).entries =
        db.entries ++ [db.entryRowOf now p] ∧
     (db.insertEntryWithFailure now p failAt).items =
        db.items ++ itemRowsOf db.nextId (db.nextId + 1) p.items ∧
     (itemRowsOf db.nextId (db.nextId + 1) p.items).length = p.items.length ∧
     (∀ r ∈ itemRowsOf db.nextId (db.nextId + 1) p.items,
        r.entry_id = (db.entryRowOf now p).id))
    ∨ ((db.insertEntryWithFailure now p failAt).entries = db.entries ∧
       (db.insertEntryWithFailure now p failAt).items = db.items) := by
  cases failAt with
  | none =>
    left
    rw [MacroTrackerDb.insertEntryWithFailure, runTransaction, applyWrites_insertWrites]
    exact ⟨rfl, rfl, itemRowsOf_length db.nextId p.items _,
           fun r hr => itemRowsOf_entry_id db.nextId p.items _ r hr⟩
  | some k =>
    rw [MacroTrackerDb.insertEntryWithFailure, runTransaction]
    by_cases hk : k < (db.insertWrites now p).length
    · right
      rw [if_pos hk]
      exact ⟨rfl, rfl⟩
    · left
      rw [if_neg hk, applyWrites_insertWrites]
      exact ⟨rfl, rfl, itemRowsOf_length db.nextId p.items _,
             fun r hr => itemRowsOf_entry_id db.nextId p.items _ r hr⟩

/-- Witness for C3 at a concrete store: a committed insert shows the
all-rows-present branch. -/
theorem insertEntry_atomicity_witness :
    (db0.insertEntryWithFailure "T" params0 none).entries =
        db0.entries ++ [db0.entryRowOf "T" params0] ∧
    (db0.insertEntryWithFailure "T" params0 none).items =
        db0.items ++ itemRowsOf db0.nextId (db0.nextId + 1) params0.items ∧
    (itemRowsOf db0.nextId (db0.nextId + 1) params0.items).length =
        params0.items.length ∧
    (∀ r ∈ itemRowsOf db0.nextId (db0.nextId + 1) params0.items,
        r.entry_id = (db0.entryRowOf "T" params0).id) := by
  rcases insertEntry_atomicity db0 "T" params0 none with h | h
  · exact h
  · exact absurd h.1 (List.cons_ne_nil _ _)

-- ── C4: goals merge semantics ───────────────────────────────────────────────

/-- Claim C4: `updateGoals` merges the supplied subset onto the existing
record when one exists (omitted fields keep their stored values; never the
baseline), falls back to the baseline defaults 2000/150/250/65/30 only when no
record has ever been written, and persists and returns the full merged
record. -/
theorem updateGoals_partial_merge (db : MacroTrackerDb) (now : String)
    (p : GoalsPatch) :
    (db.updateGoals now p).1.getGoals = some (db.updateGoals now p).2
  ∧ (∀ g0, db.getGoals = some g0 →
      (db.updateGoals now p).2 =
        ⟨"default", p.calories.getD g0.calories, p.protein.getD g0.protein,
         p.carbs.getD g0.carbs, p.fat.getD g0.fat, p.fiber.getD g0.fiber, now⟩)
  ∧ (db.getGoals = none →
      (db.updateGoals now p).2 =
        ⟨"default", p.calories.getD 2000, p.protein.getD 150, p.carbs.getD 250,
         p.fat.getD 65, p.fiber.getD 30, now⟩) := by
  refine ⟨rfl, ?_, ?_⟩
  · intro g0 h
    have h' : db.goals = some g0 := h
    simp [MacroTrackerDb.updateGoals, MacroTrackerDb.getGoals, h']
  · intro h
    have h' : db.goals = none := h
    simp [MacroTrackerDb.updateGoals, MacroTrackerDb.getGoals, h']

def goalsPrior : Goals := ⟨"default", 2500, 180, 250, 65, 30, "2026-01-10T00:00:00.000Z"⟩

def dbGoals : MacroTrackerDb := ⟨[], [], some goalsPrior, 0⟩

def patchProtein : GoalsPatch := ⟨none, some 200, none, none, none⟩

/-- Witness for C4: the spec's own example — update only `protein` on existing
goals `{calories: 2500, protein: 180, ...}` yields `{calories: 2500,
protein: 200, ...}` with every other field unchanged. -/
theorem updateGoals_partial_merge_witness :
    (dbGoals.updateGoals "2026-01-20T00:00:00.000Z" patchProtein).2 =
      ⟨"default", 2500, 200, 250, 65, 30, "2026-01-20T00:00:00.000Z"⟩ := by
  have h :=
    (updateGoals_partial_merge dbGoals "2026-01-20T00:00:00.000Z" patchProtein).2.1
      goalsPrior rfl
  simpa [patchProtein, goalsPrior] using h

-- ── C5: goals update validation ─────────────────────────────────────────────

/-- Claim C5 counterexample: a call supplying a non-negative `calories`
together with a negative `protein` still fails with the negativity
validation error, refuting "a call supplying at least one non-negative field
does not fail for this reason". -/
theorem updateGoalsTool_mixed_negative_fails :
    updateGoalsToolExecute db0 "2026-01-20T00:00:00.000Z"
        ⟨some 2000, some (-5), none, none, none⟩ =
      .error "protein must be non-negative" := rfl

/-- Claim C5 (amended): the goals-update tool fails when any supplied field is
negative (at the first such field in order calories, protein, carbs, fat,
fiber) or when no field is supplied; it succeeds exactly when at least one
field is supplied and every supplied field is non-negative, in which case it
performs `db.updateGoals`. -/
theorem updateGoalsTool_validation (db : MacroTrackerDb) (now : String)
    (p : GoalsPatch) :
    (exceptOk (updateGoalsToolExecute db now p) = true ↔
      ((isNeg p.calories || isNeg p.protein || isNeg p.carbs || isNeg p.fat ||
          isNeg p.fiber) = false ∧ p.anyProvided = true))
  ∧ (∀ db' g, updateGoalsToolExecute db now p = .ok (db', g) →
      (db', g) = db.updateGoals now p) := by
  constructor
  · cases h1 : isNeg p.calories <;> cases h2 : isNeg p.protein <;>
      cases h3 : isNeg p.carbs <;> cases h4 : isNeg p.fat <;>
        cases h5 : isNeg p.fiber <;> cases h6 : p.anyProvided <;>
          simp [updateGoalsToolExecute, exceptOk, h1, h2, h3, h4, h5, h6]
  · intro db' g h
    unfold updateGoalsToolExecute at h
    split_ifs at h
    all_goals injection h with h'
    all_goals exact h'.symm

def patchCalOnly : GoalsPatch := ⟨some 2500, none, none, none, none⟩

/-- Witness for C5 (amended): supplying a single non-negative field succeeds. -/
theorem updateGoalsTool_validation_witness :
    exceptOk (updateGoalsToolExecute db0 "2026-01-20T00:00:00.000Z" patchCalOnly) =
      true := by
  exact (updateGoalsTool_validation db0 "2026-01-20T00:00:00.000Z" patchCalOnly).1.mpr
    (by constructor <;> decide)

-- ── C6: date-range query ────────────────────────────────────────────────────

/-- Claim C6: `getEntriesByDateRange` returns exactly the entries whose date
lies in `[from, to]` under lexicographic comparison (both bounds inclusive),
each materialized with its items, ordered by creation timestamp ascending;
an empty range (`to < from`) yields the empty sequence, not an error. -/
theorem getEntriesByDateRange_spec (db : MacroTrackerDb) (from_ to_ : String) :
    (db.getEntriesByDateRange from_ to_).Perm
        ((db.entries.filter
            (fun r => decide (from_ ≤ r.date) && decide (r.date ≤ to_))).map
          db.materializeEntry)
  ∧ (db.getEntriesByDateRange from_ to_).Pairwise
        (fun a b => a.created_at ≤ b.created_at)
  ∧ (∀ e ∈ db.getEntriesByDateRange from_ to_,
      from_ ≤ e.date ∧ e.date ≤ to_ ∧
        e.items = db.items.filter (fun it => it.entry_id == e.id))
  ∧ (from_ ≤ to_ ∨ db.getEntriesByDateRange from_ to_ = []) := by
  refine ⟨?_, ?_, ?_, ?_⟩
  · exact List.Perm.map db.materializeEntry
      (List.perm_insertionSort createdLE _)
  · have hs := List.sorted_insertionSort createdLE
      (db.entries.filter (fun r => decide (from_ ≤ r.date) && decide (r.date ≤ to_)))
    exact List.Pairwise.map db.materializeEntry (fun a b hab => hab) hs
  · intro e he
    rcases List.mem_map.mp he with ⟨r, hr, rfl⟩
    have hr' : r ∈ db.entries.filter
        (fun r => decide (from_ ≤ r.date) && decide (r.date ≤ to_)) :=
      (List.Perm.mem_iff (List.perm_insertionSort createdLE _)).mp hr
    have hp := (List.mem_filter.mp hr').2
    rw [Bool.and_eq_true, decide_eq_true_iff, decide_eq_true_iff] at hp
    exact ⟨hp.1, hp.2, rfl⟩
  · by_cases h : from_ ≤ to_
    · exact Or.inl h
    · right
      have hnil : db.entries.filter
          (fun r => decide (from_ ≤ r.date) && decide (r.date ≤ to_)) = [] := by
        rw [List.filter_eq_nil_iff]
        intro r _ hp
        rw [Bool.and_eq_true, decide_eq_true_iff, decide_eq_true_iff] at hp
        exact h (le_trans hp.1 hp.2)
      unfold MacroTrackerDb.getEntriesByDateRange
      rw [hnil]
      rfl

/-- Witness for C6: on the empty store the range query yields the empty list,
obtained through the range theorem's empty-range disjunct. -/
theorem getEntriesByDateRange_spec_witness :
    db0.getEntriesByDateRange "2026-01-15" "2026-01-10" = [] := by
  rcases (getEntriesByDateRange_spec db0 "2026-01-15" "2026-01-10").2.2.2 with h | h
  · cases (List.Perm.eq_nil
      (List.Perm.symm (getEntriesByDateRange_spec db0 "2026-01-15" "2026-01-10").1))
    rfl
  · exact h

-- ── C7: deletion and cascade ────────────────────────────────────────────────

/-- Claim C7: `deleteEntry` returns true exactly when an entry row with the
given id existed; afterwards `getEntry` on that id is absent, on success no
remaining item row references the id (cascade), and a returned false means the
store is unchanged. -/
theorem deleteEntry_spec (db : MacroTrackerDb) (id : Nat) :
    ((db.deleteEntry id).2 = true ↔ ∃ r ∈ db.entries, r.id = id)
  ∧ (db.deleteEntry id).1.getEntry id = none
  ∧ ((db.deleteEntry id).2 = true →
      ∀ it ∈ (db.deleteEntry id).1.items, it.entry_id ≠ id)
  ∧ ((db.deleteEntry id).2 = false → (db.deleteEntry id).1 = db) := by
  have hbool : (db.deleteEntry id).2 =
      decide (0 < db.entries.countP (fun r => r.id == id)) := rfl
  refine ⟨?_, ?_, ?_, ?_⟩
  · rw [hbool, decide_eq_true_iff, List.countP_pos]
    constructor
    · rintro ⟨r, hr, hp⟩
      exact ⟨r, hr, by simpa using hp⟩
    · rintro ⟨r, hr, hp⟩
      exact ⟨r, hr, by simpa using hp⟩
  · have hf : ((db.deleteEntry id).1.entries.find? (fun r => r.id == id)) = none := by
      rw [List.find?_eq_none]
      intro r hr
      have h2 := (List.mem_filter.mp hr).2
      simpa using h2
    show MacroTrackerDb.getEntry _ id = none
    simp only [MacroTrackerDb.getEntry, hf]
  · intro hsucc it hit hid
    rcases (by
      rw [hbool, decide_eq_true_iff, List.countP_pos] at hsucc
      exact hsucc : ∃ r ∈ db.entries, (r.id == id) = true) with ⟨r0, hr0, hp0⟩
    have hkeep := (List.mem_filter.mp hit).2
    rw [Bool.not_eq_true', List.any_eq_false] at hkeep
    have := hkeep r0 hr0
    rw [Bool.and_eq_true] at this
    apply this
    constructor
    · exact hp0
    · rw [beq_iff_eq] at hp0 ⊢
      rw [hid, hp0]
  · intro hfail
    rw [hbool] at hfail
    have hzero : db.entries.countP (fun r => r.id == id) = 0 := by
      by_contra hne'
      have : 0 < db.entries.countP (fun r => r.id == id) := Nat.pos_of_ne_zero hne'
      simp [this] at hfail
    have hnone : ∀ r ∈ db.entries, (r.id == id) = false := by
      intro r hr
      rcases List.countP_eq_zero.mp hzero r hr with h
      simpa using h
    have he : db.entries.filter (fun r => !(r.id == id)) = db.entries := by
      rw [List.filter_eq_self]
      intro r hr
      rw [hnone r hr]
      rfl
    have hi : db.items.filter
        (fun it => !(db.entries.any (fun r => r.id == id && it.entry_id == r.id))) =
          db.items := by
      rw [List.filter_eq_self]
      intro it _
      have : db.entries.any (fun r => r.id == id && it.entry_id == r.id) = false := by
        rw [List.any_eq_false]
        intro r hr
        rw [Bool.and_eq_true]
        rintro ⟨h1, _⟩
        rw [hnone r hr] at h1
        cases h1
      rw [this]
      rfl
    show (⟨db.entries.filter (fun r => !(r.id == id)),
          db.items.filter (fun it =>
            !(db.entries.any (fun r => r.id == id && it.entry_id == r.id))),
          db.goals, db.nextId⟩ : MacroTrackerDb) = db
    rw [he, hi]

/-- Witness for C7: deleting a non-existent id from the empty store reports
false and leaves the lookup absent. -/
theorem deleteEntry_spec_witness :
    (db0.deleteEntry 7).1.getEntry 7 = none ∧ (db0.deleteEntry 7).1 = db0 := by
  refine ⟨(deleteEntry_spec db0 7).2.1, (deleteEntry_spec db0 7).2.2.2 ?_⟩
  rfl

-- ── C8: daily summary for an empty day ──────────────────────────────────────

/-- Claim C8: for a date with no stored entries, `getDailySummary` returns all
five totals 0, entry count 0 and an empty entry list (with the current goals),
and does not signal an error. -/
theorem getDailySummary_empty_day (db : MacroTrackerDb) (date : String)
    (h : ∀ e ∈ db.entries, e.date ≠ date) :
    db.getDailySummary date = ⟨date, 0, 0, 0, 0, 0, 0, [], db.getGoals⟩ := by
  have hempty : db.getEntriesByDateRange date date = [] := by
    have hnil : db.entries.filter
        (fun r => decide (date ≤ r.date) && decide (r.date ≤ date)) = [] := by
      rw [List.filter_eq_nil_iff]
      intro r hr hp
      rw [Bool.and_eq_true, decide_eq_true_iff, decide_eq_true_iff] at hp
      exact h r hr (le_antisymm hp.2 hp.1)
    unfold MacroTrackerDb.getEntriesByDateRange
    rw [hnil]
    rfl
  simp only [MacroTrackerDb.getDailySummary, hempty]
  rfl

/-- Witness for C8 on the empty store and a far-future date. -/
theorem getDailySummary_empty_day_witness :
    (∀ e ∈ db0.entries, e.date ≠ "2099-12-31") ∧
      db0.getDailySummary "2099-12-31" =
        ⟨"2099-12-31", 0, 0, 0, 0, 0, 0, [], db0.getGoals⟩ := by
  have h : ∀ e ∈ db0.entries, e.date ≠ "2099-12-31" := by simp [db0]
  exact ⟨h, getDailySummary_empty_day db0 "2099-12-31" h⟩

-- ── C10: daily summary internal consistency ────────────────────────────────

/-- Claim C10: every `getDailySummary` result is internally consistent — its
entry count is the length of its entry list, and each stored total is the sum
of the corresponding stored total field over the listed entries. -/
theorem getDailySummary_consistent (db : MacroTrackerDb) (date : String) :
    (db.getDailySummary date).entry_count = (db.getDailySummary date).entries.length
  ∧ (db.getDailySummary date).total_calories =
      ((db.getDailySummary date).entries.map (·.total_calories)).sum
  ∧ (db.getDailySummary date).total_protein =
      ((db.getDailySummary date).entries.map (·.total_protein)).sum
  ∧ (db.getDailySummary date).total_carbs =
      ((db.getDailySummary date).entries.map (·.total_carbs)).sum
  ∧ (db.getDailySummary date).total_fat =
      ((db.getDailySummary date).entries.map (·.total_fat)).sum
  ∧ (db.getDailySummary date).total_fiber =
      ((db.getDailySummary date).entries.map (·.total_fiber)).sum := by
  exact ⟨rfl, sumBy_eq_sum _ _, sumBy_eq_sum _ _, sumBy_eq_sum _ _,
         sumBy_eq_sum _ _, sumBy_eq_sum _ _⟩

-- ── C9: range summary grouping and averages ────────────────────────────────

theorem sumBy_map (g : α → β) (f : β → ℚ) (l : List α) :
    sumBy (l.map g) f = sumBy l (fun x => f (g x)) := by
  rw [sumBy_eq_sum, sumBy_eq_sum, List.map_map]
  rfl

theorem filter_date_of_ne (d d' : String) (hne : d' ≠ d)
    (es : List NutritionEntry) :
    (es.filter (fun e => !(e.date == d))).filter (fun e => e.date == d') =
      es.filter (fun e => e.date == d') := by
  induction es with
  | nil => rfl
  | cons a t ih =>
    by_cases hd : a.date = d
    · have h1 : (a.date == d) = true := by simpa using hd
      have h2 : (a.date == d') = false := by
        rw [beq_eq_false_iff_ne]
        rw [hd]
        exact fun h => hne h.symm
      simp only [List.filter_cons, h1, h2, Bool.not_true, Bool.false_eq_true,
        if_false, ih]
    · have h1 : (a.date == d) = false := by simpa using hd
      by_cases hd' : a.date = d'
      · have h2 : (a.date == d') = true := by simpa using hd'
        simp only [List.filter_cons, h1, h2, Bool.not_false, if_true, ih]
      · have h2 : (a.date == d') = false := by simpa using hd'
        simp only [List.filter_cons, h1, h2, Bool.not_false, if_true,
          Bool.false_eq_true, if_false, ih]

theorem sum_over_groups (f : NutritionEntry → ℚ) :
    ∀ ds : List String, ds.Nodup → ∀ es : List NutritionEntry,
      (∀ e ∈ es, e.date ∈ ds) →
      ((ds.map (fun d => sumBy (es.filter (fun e => e.date == d)) f)).sum) =
        sumBy es f := by
  intro ds
  induction ds with
  | nil =>
    intro _ es hcov
    have hes : es = [] := by
      cases es with
      | nil => rfl
      | cons a t => exact absurd (hcov a (List.mem_cons_self a t)) (List.not_mem_nil _)
    subst hes
    simp [sumBy]
  | cons d ds' ih =>
    intro hnd es hcov
    have hd_not : d ∉ ds' := (List.nodup_cons.mp hnd).1
    have hnd' : ds'.Nodup := (List.nodup_cons.mp hnd).2
    have hcov' : ∀ e ∈ es.filter (fun e => !(e.date == d)), e.date ∈ ds' := by
      intro e he
      have hmem := (List.mem_filter.mp he).1
      have hneq := (List.mem_filter.mp he).2
      rcases List.mem_cons.mp (hcov e hmem) with h | h
      · rw [Bool.not_eq_true', beq_eq_false_iff_ne] at hneq
        exact absurd h hneq
      · exact h
    have hmapeq : ds'.map (fun d' => sumBy (es.filter (fun e => e.date == d')) f) =
        ds'.map (fun d' =>
          sumBy ((es.filter (fun e => !(e.date == d))).filter
            (fun e => e.date == d')) f) := by
      apply List.map_congr_left
      intro d' hd'
      have hne' : d' ≠ d := fun h => hd_not (h ▸ hd')
      rw [filter_date_of_ne d d' hne']
    rw [List.map_cons, List.sum_cons, hmapeq,
        ih hnd' (es.filter (fun e => !(e.date == d))) hcov']
    exact sumBy_filter_not_add (fun e => e.date == d) f es

/-- Claim C9: the range summary groups entries by date; its period totals
equal the plain sums over all entries in range; each per-day average is the
rounded quotient of the period total by the number of distinct days that
contain at least one entry — with divisor 1 when no day has entries, which
yields all-zero averages. -/
theorem rangeSummary_spec (db : MacroTrackerDb) (from_ to_ : String) :
    (rangeSummary db from_ to_).days.length =
        ((db.getEntriesByDateRange from_ to_).map (·.date)).dedup.length
  ∧ (rangeSummary db from_ to_).totals.calories =
        sumBy (db.getEntriesByDateRange from_ to_) (·.total_calories)
  ∧ (rangeSummary db from_ to_).totals.protein =
        sumBy (db.getEntriesByDateRange from_ to_) (·.total_protein)
  ∧ (rangeSummary db from_ to_).totals.carbs =
        sumBy (db.getEntriesByDateRange from_ to_) (·.total_carbs)
  ∧ (rangeSummary db from_ to_).totals.fat =
        sumBy (db.getEntriesByDateRange from_ to_) (·.total_fat)
  ∧ (rangeSummary db from_ to_).totals.fiber =
        sumBy (db.getEntriesByDateRange from_ to_) (·.total_fiber)
  ∧ (rangeSummary db from_ to_).averages.calories =
        jsRound ((rangeSummary db from_ to_).totals.calories /
          (if ((db.getEntriesByDateRange from_ to_).map (·.date)).dedup.length = 0
           then (1 : ℚ)
           else (((db.getEntriesByDateRange from_ to_).map (·.date)).dedup.length : ℚ)))
  ∧ (rangeSummary db from_ to_).averages.protein =
        jsRound ((rangeSummary db from_ to_).totals.protein /
          (if ((db.getEntriesByDateRange from_ to_).map (·.date)).dedup.length = 0
           then (1 : ℚ)
           else (((db.getEntriesByDateRange from_ to_).map (·.date)).dedup.length : ℚ)))
  ∧ (rangeSummary db from_ to_).averages.carbs =
        jsRound ((rangeSummary db from_ to_).totals.carbs /
          (if ((db.getEntriesByDateRange from_ to_).map (·.date)).dedup.length = 0
           then (1 : ℚ)
           else (((db.getEntriesByDateRange from_ to_).map (·.date)).dedup.length : ℚ)))
  ∧ (rangeSummary db from_ to_).averages.fat =
        jsRound ((rangeSummary db from_ to_).totals.fat /
          (if ((db.getEntriesByDateRange from_ to_).map (·.date)).dedup.length = 0
           then (1 : ℚ)
           else (((db.getEntriesByDateRange from_ to_).map (·.date)).dedup.length : ℚ)))
  ∧ (rangeSummary db from_ to_).averages.fiber =
        jsRound ((rangeSummary db from_ to_).totals.fiber /
          (if ((db.getEntriesByDateRange from_ to_).map (·.date)).dedup.length = 0
           then (1 : ℚ)
           else (((db.getEntriesByDateRange from_ to_).map (·.date)).dedup.length : ℚ)))
  ∧ (db.getEntriesByDateRange from_ to_ = [] →
      (rangeSummary db from_ to_).averages = ⟨0, 0, 0, 0, 0⟩) := by
  have hlen : (rangeSummary db from_ to_).days.length =
      ((db.getEntriesByDateRange from_ to_).map (·.date)).dedup.length := by
    show ((((db.getEntriesByDateRange from_ to_).map (·.date)).dedup.insertionSort
        (· ≤ ·)).map (dayTotalsFor (db.getEntriesByDateRange from_ to_))).length = _
    rw [List.length_map]
    exact (List.perm_insertionSort _ _).length_eq
  have key : ∀ f : NutritionEntry → ℚ,
      (((((db.getEntriesByDateRange from_ to_).map (·.date)).dedup.insertionSort
          (· ≤ ·)).map
        (fun d => sumBy ((db.getEntriesByDateRange from_ to_).filter
          (fun e => e.date == d)) f)).sum) =
        sumBy (db.getEntriesByDateRange from_ to_) f := by
    intro f
    rw [List.Perm.sum_eq (List.Perm.map _ (List.perm_insertionSort _ _))]
    exact sum_over_groups f _ (List.nodup_dedup _) _
      (fun e he => List.mem_dedup.mpr (List.mem_map_of_mem _ he))
  have hdiv : (((if (rangeSummary db from_ to_).days.length = 0 then 1
      else (rangeSummary db from_ to_).days.length) : ℕ) : ℚ) =
        (if ((db.getEntriesByDateRange from_ to_).map (·.date)).dedup.length = 0
         then (1 : ℚ)
         else (((db.getEntriesByDateRange from_ to_).map (·.date)).dedup.length : ℚ)) := by
    rw [hlen]
    by_cases h : ((db.getEntriesByDateRange from_ to_).map (·.date)).dedup.length = 0
    · simp [h]
    · simp [h]
  have hcal : (rangeSummary db from_ to_).totals.calories =
      sumBy (db.getEntriesByDateRange from_ to_) (·.total_calories) := by
    show sumBy ((((db.getEntriesByDateRange from_ to_).map (·.date)).dedup.insertionSort
        (· ≤ ·)).map (dayTotalsFor (db.getEntriesByDateRange from_ to_)))
      (·.calories) = _
    rw [sumBy_map, sumBy_eq_sum]
    exact key (·.total_calories)
  have hpro : (rangeSummary db from_ to_).totals.protein =
      sumBy (db.getEntriesByDateRange from_ to_) (·.total_protein) := by
    show sumBy ((((db.getEntriesByDateRange from_ to_).map (·.date)).dedup.insertionSort
        (· ≤ ·)).map (dayTotalsFor (db.getEntriesByDateRange from_ to_)))
      (·.protein) = _
    rw [sumBy_map, sumBy_eq_sum]
    exact key (·.total_protein)
  have hcarb : (rangeSummary db from_ to_).totals.carbs =
      sumBy (db.getEntriesByDateRange from_ to_) (·.total_carbs) := by
    show sumBy ((((db.getEntriesByDateRange from_ to_).map (·.date)).dedup.insertionSort
        (· ≤ ·)).map (dayTotalsFor (db.getEntriesByDateRange from_ to_)))
      (·.carbs) = _
    rw [sumBy_map, sumBy_eq_sum]
    exact key (·.total_carbs)
  have hfat : (rangeSummary db from_ to_).totals.fat =
      sumBy (db.getEntriesByDateRange from_ to_) (·.total_fat) := by
    show sumBy ((((db.getEntriesByDateRange from_ to_).map (·.date)).dedup.insertionSort
        (· ≤ ·)).map (dayTotalsFor (db.getEntriesByDateRange from_ to_)))
      (·.fat) = _
    rw [sumBy_map, sumBy_eq_sum]
    exact key (·.total_fat)
  have hfib : (rangeSummary db from_ to_).totals.fiber =
      sumBy (db.getEntriesByDateRange from_ to_) (·.total_fiber) := by
    show sumBy ((((db.getEntriesByDateRange from_ to_).map (·.date)).dedup.insertionSort
        (· ≤ ·)).map (dayTotalsFor (db.getEntriesByDateRange from_ to_)))
      (·.fiber) = _
    rw [sumBy_map, sumBy_eq_sum]
    exact key (·.total_fiber)
  refine ⟨hlen, hcal, hpro, hcarb, hfat, hfib, ?_, ?_, ?_, ?_, ?_, ?_⟩
  · rw [← hdiv]; rfl
  · rw [← hdiv]; rfl
  · rw [← hdiv]; rfl
  · rw [← hdiv]; rfl
  · rw [← hdiv]; rfl
  · intro h
    simp only [rangeSummary, h]
    norm_num [sumBy, jsRound, Int.floor_eq_iff]

/-- Witness for C9: on the empty store no day has an entry, so the averages
are all zero, obtained through the range-summary theorem's zero-days clause. -/
theorem rangeSummary_spec_witness :
    db0.getEntriesByDateRange "2026-01-01" "2026-01-07" = [] ∧
      (rangeSummary db0 "2026-01-01" "2026-01-07").averages = ⟨0, 0, 0, 0, 0⟩ := by
  have h : db0.getEntriesByDateRange "2026-01-01" "2026-01-07" = [] := rfl
  exact ⟨h, (rangeSummary_spec db0 "2026-01-01" "2026-01-07").2.2.2.2.2.2.2.2.2.2.2 h⟩
